import Mathlib

/-!
Shallow embedding of `mickaeldamatha/mkdm-usegraphql`, a React hook that
issues a single GraphQL POST request and tracks `{data, loading, error}`
state.  Two implementations ship in the repository:

* `src/src/index.tsx`  (TypeScript source), embedded as the `...Tsx`
  definitions below;
* `src/lib/index.js`   (compiled JavaScript), embedded as the `...Lib`
  definitions below.

JavaScript values appearing in the hook are modelled as a small inductive
`Json` type; opaque caught errors are modelled as `String`; the transport
(`fetch`) and body parse (`req.json()`) are modelled by an explicit
`FetchOutcome` argument, so that `loadData` becomes a pure function from
the prior `ResultRecord` state (plus the outcome) to the next state
together with the list of observable effect events it performs, in
program order.
-/

/-- JSON-ish JavaScript values (numbers restricted to integers; no claim
involves fractional numbers). -/
inductive Json where
  | null
  | bool (b : Bool)
  | num (n : Int)
  | str (s : String)
  | arr (elems : List Json)
  | obj (fields : List (String × Json))

/-- JavaScript truthiness of a `Json` value: `null`, `false`, `0` and `""`
are falsy; every object and array is truthy. -/
def jsTruthy : Json → Bool
  | .null => false
  | .bool b => b
  | .num n => n != 0
  | .str s => s != ""
  | .arr _ => true
  | .obj _ => true

/-- Property access `v.k` in JavaScript: on `null` it THROWS a TypeError
(a body of literal `null` is valid JSON, so `req.json()` can resolve to
it); on an object it yields the field's value, or `undefined` (`none`)
when the key is absent; on any other value (boxed primitives, arrays) it
yields `undefined` without throwing. -/
def getField : Json → String → Except String (Option Json)
  | .null, k =>
      .error ("TypeError: Cannot read properties of null (reading " ++ k ++ ")")
  | .obj fields, k => .ok (fields.lookup k)
  | _, _ => .ok none

/-- The hook's construction inputs: `useGraphQL({query, variables, loadOnStart})`. -/
structure Props where
  query : String
  «variables» : Json
  loadOnStart : Bool

/-- The `GraphQLContext` value `{endpoint, headers}`.  Headers are an
association list in insertion order; an absent (`undefined`) headers prop
spreads no entries and is modelled by `[]`. -/
structure Config where
  endpoint : String
  headers : List (String × String)

/-- The hook's observable state: `loading` / `data` / `error`,
each initialised by `useState` to `false` / `null` / `null`
(`none` models both JS `null` and `undefined` for the option fields). -/
structure ResultRecord where
  loading : Bool
  data : Option Json
  error : Option String

/-- The request body `{query, variables}` built per invocation
(`JSON.stringify` is delegated to standard JSON encoding; we keep the
structured value). -/
structure Packet where
  query : String
  «variables» : Json

/-- The argument pair of the `fetch` call: URL, method, headers, body. -/
structure Request where
  url : String
  method : String
  headers : List (String × String)
  body : Packet

/-- Lookup in a JS object built from an association list by insertion:
a later entry with the same key overwrites an earlier one, so the LAST
matching entry wins. -/
def hLookup : List (String × String) → String → Option String
  | [], _ => none
  | (k, v) :: rest, key =>
      match hLookup rest key with
      | some v2 => some v2
      | none => if k = key then some v else none

/-- The header object of the outgoing request,
`{ "Content-Type": "application/json", ...headers }` (both files):
the fixed entry inserted first, then the configured entries spread over it. -/
def requestHeaders (configured : List (String × String)) : List (String × String) :=
  ("Content-Type", "application/json") :: configured

/-- `const params = vars ? vars : props.variables` — the ternary tests JS
truthiness of the override; an omitted argument (`undefined`) is falsy. -/
def chosenVars (props : Props) (vars : Option Json) : Json :=
  match vars with
  | some v => if jsTruthy v then v else props.variables
  | none => props.variables

/-- `const packet = { query: props.query, variables: params }` (both files). -/
def mkPacket (props : Props) (vars : Option Json) : Packet :=
  { query := props.query, «variables» := chosenVars props vars }

/-- The full argument of the `fetch` call in `loadData`:
`fetch(endpoint, { method: "post", headers: {...}, body: JSON.stringify(packet) })`
(both files). -/
def mkRequest (props : Props) (cfg : Config) (vars : Option Json) : Request :=
  { url := cfg.endpoint
    method := "post"
    headers := requestHeaders cfg.headers
    body := mkPacket props vars }

/-- Result of `req.json()` on the transport's response: a parsed `Json`
value or a thrown parse error.  (A non-2xx status does not make `fetch`
throw; it is an ordinary response whose body may or may not parse.) -/
structure Response where
  jsonResult : Except String Json

/-- Outcome of the `await fetch(...)` step: the promise rejects with an
error, or resolves to a response. -/
inductive FetchOutcome where
  | fetchThrow (e : String)
  | ok (resp : Response)

/-- The error value a given transport outcome throws inside the `try`
block, if any: a fetch rejection, a `req.json()` parse failure, or the
TypeError thrown by the `rs.data` access when the parsed body is `null`. -/
def failureOf : FetchOutcome → Option String
  | .fetchThrow e => some e
  | .ok resp =>
      match resp.jsonResult with
      | .error e => some e
      | .ok rs =>
          match getField rs "data" with
          | .error e => some e
          | .ok _ => none

/-- Observable effect events of one `loadData` invocation, in program order. -/
inductive Event where
  | setLoading (b : Bool)
  | fetchEv (req : Request)
  | delay (ms : Nat)
  | jsonCall
  | setData (d : Option Json)
  | setError (e : String)

/-- Is this event the `fetch` call? -/
def Event.isFetch : Event → Bool
  | .fetchEv _ => true
  | _ => false

/-- Is this event the `setTimeout` delay? -/
def Event.isDelay : Event → Bool
  | .delay _ => true
  | _ => false

/-- The `try` block of `loadData` in `src/src/index.tsx` (lines 108-130),
line by line: build `params`/`packet`, `setLoading(true)`, `await fetch`,
`await` a 3000 ms `setTimeout` promise, `await req.json()`, `setData(rs.data)`
(the argument access `rs.data` throws when the parsed body is `null`),
`setLoading(false)`.  A thrown step yields `.error` carrying the thrown
value, the state at the throw point, and the events performed so far. -/
def tryBodyTsx (props : Props) (cfg : Config) (vars : Option Json)
    (outcome : FetchOutcome) (s : ResultRecord) :
    Except (String × ResultRecord × List Event) (ResultRecord × List Event) :=
  let req := mkRequest props cfg vars
  let s1 : ResultRecord := { s with loading := true }
  let tr1 : List Event := [.setLoading true, .fetchEv req]
  match outcome with
  | .fetchThrow e => .error (e, s1, tr1)
  | .ok resp =>
      let tr2 := tr1 ++ [.delay 3000, .jsonCall]
      match resp.jsonResult with
      | .error e => .error (e, s1, tr2)
      | .ok rs =>
          match getField rs "data" with
          | .error e => .error (e, s1, tr2)
          | .ok d =>
              .ok ({ s1 with data := d, loading := false },
                   tr2 ++ [.setData d, .setLoading false])

/-- `loadData` in `src/src/index.tsx`: the `try` block wrapped in
`catch (error) { setError(error) }` — every thrown value is caught and
stored in `error`, nothing is rethrown. -/
def loadDataTsx (props : Props) (cfg : Config) (vars : Option Json)
    (outcome : FetchOutcome) (s : ResultRecord) : ResultRecord × List Event :=
  match tryBodyTsx props cfg vars outcome s with
  | .ok r => r
  | .error (e, sAt, tr) => ({ sAt with error := some e }, tr ++ [.setError e])

/-- The `try` block of `loadData` in `src/lib/index.js` (lines 78-96):
identical to the TypeScript one except that there is no `setTimeout`
delay between the transport completion and `req.json()`. -/
def tryBodyLib (props : Props) (cfg : Config) (vars : Option Json)
    (outcome : FetchOutcome) (s : ResultRecord) :
    Except (String × ResultRecord × List Event) (ResultRecord × List Event) :=
  let req := mkRequest props cfg vars
  let s1 : ResultRecord := { s with loading := true }
  let tr1 : List Event := [.setLoading true, .fetchEv req]
  match outcome with
  | .fetchThrow e => .error (e, s1, tr1)
  | .ok resp =>
      let tr2 := tr1 ++ [.jsonCall]
      match resp.jsonResult with
      | .error e => .error (e, s1, tr2)
      | .ok rs =>
          match getField rs "data" with
          | .error e => .error (e, s1, tr2)
          | .ok d =>
              .ok ({ s1 with data := d, loading := false },
                   tr2 ++ [.setData d, .setLoading false])

/-- `loadData` in `src/lib/index.js`: the `try` block wrapped in
`catch (error) { setError(error) }`. -/
def loadDataLib (props : Props) (cfg : Config) (vars : Option Json)
    (outcome : FetchOutcome) (s : ResultRecord) : ResultRecord × List Event :=
  match tryBodyLib props cfg vars outcome s with
  | .ok r => r
  | .error (e, sAt, tr) => ({ sAt with error := some e }, tr ++ [.setError e])

/-- `reset` (identical in both files):
`setLoading(false); setError(null); setData(null)`. -/
def reset (_s : ResultRecord) : ResultRecord :=
  { loading := false, error := none, data := none }

/-- Whether the mount effect of `src/src/index.tsx` (lines 138-144) issues
an automatic `loadData()` call: `if (props.loadOnStart) { loadData(); }`. -/
def autoTriggerTsx (props : Props) : Bool :=
  props.loadOnStart

/-- Whether the mount effect of `src/lib/index.js` (lines 101-107) issues
an automatic `loadData()` call: `if (props.variables) { loadData(); }` —
the condition tests the truthiness of `variables`, not `loadOnStart`. -/
def autoTriggerLib (props : Props) : Bool :=
  jsTruthy props.variables

/-- Shape of the value `useGraphQL` returns to the consumer. -/
inductive ReturnShape where
  | arrayPair
  | flatObject
  deriving DecidableEq

/-- `src/src/index.tsx` returns the array `[loadData, {data, loading, reset, error}]`. -/
def returnShapeTsx : ReturnShape := .arrayPair

/-- `src/lib/index.js` returns the object `{loadData, data, reset, error, loading}`. -/
def returnShapeLib : ReturnShape := .flatObject

/-- Claim C1: on any trigger/loadData invocation whose transport or parse
step fails (fetch rejects or `req.json()` throws), both implementations
store the thrown value in `error`, leave `loading` at the value it had at
the failure point (`true`, since `setLoading(true)` precedes the fetch),
and leave `data` unchanged. -/
theorem c1_failure_keeps_loading_and_data (props : Props) (cfg : Config)
    (vars : Option Json) (o : FetchOutcome) (s : ResultRecord) (e : String)
    (h : failureOf o = some e) :
    (loadDataTsx props cfg vars o s).1
        = { loading := true, data := s.data, error := some e }
    ∧ (loadDataLib props cfg vars o s).1
        = { loading := true, data := s.data, error := some e } := by
  cases o with
  | fetchThrow e2 =>
      simp [failureOf] at h
      subst h
      simp [loadDataTsx, loadDataLib, tryBodyTsx, tryBodyLib]
  | ok resp =>
      cases hr : resp.jsonResult with
      | error e2 =>
          simp [failureOf, hr] at h
          subst h
          simp [loadDataTsx, loadDataLib, tryBodyTsx, tryBodyLib, hr]
      | ok rs =>
          cases hg : getField rs "data" with
          | error e2 =>
              simp [failureOf, hr, hg] at h
              subst h
              simp [loadDataTsx, loadDataLib, tryBodyTsx, tryBodyLib, hr, hg]
          | ok d =>
              simp [failureOf, hr, hg] at h

/-- Concrete instance of C1: a rejecting transport on a fresh hook leaves
`loading = true`, `data` untouched and stores the failure in `error`. -/
theorem c1_witness :
    (loadDataTsx ⟨"{ping}", .obj [], false⟩ ⟨"", []⟩ none (.fetchThrow "boom")
        ⟨false, none, none⟩).1
      = { loading := true, data := none, error := some "boom" } :=
  (c1_failure_keeps_loading_and_data ⟨"{ping}", .obj [], false⟩ ⟨"", []⟩ none
      (.fetchThrow "boom") ⟨false, none, none⟩ "boom" rfl).1

/-- Claim C2: the outgoing request's headers are the fixed
`Content-Type: application/json` entry with the configured headers spread
over it, so a configured entry wins on any key collision; every request
built by loadData carries exactly these headers; and the Authorization
example from the spec holds literally. -/
theorem c2_header_merge_precedence :
    (∀ hs k, hLookup (requestHeaders hs) k
        = match hLookup hs k with
          | some v => some v
          | none => if k = "Content-Type" then some "application/json" else none)
    ∧ (∀ props cfg vars, (mkRequest props cfg vars).headers = requestHeaders cfg.headers)
    ∧ requestHeaders [("Authorization", "X")]
        = [("Content-Type", "application/json"), ("Authorization", "X")] := by
  refine ⟨?_, fun _ _ _ => rfl, rfl⟩
  intro hs k
  show (match hLookup hs k with
        | some v2 => some v2
        | none => if "Content-Type" = k then some "application/json" else none) = _
  cases hLookup hs k with
  | some v => rfl
  | none =>
      by_cases hk : k = "Content-Type"
      · subst hk; simp
      · rw [if_neg (fun h2 => hk h2.symm), if_neg hk]

/-- Counterexample to C4 as stated: the transport succeeds and the body
parses as JSON — to the literal value `null` — yet the hook does NOT set
`loading = false`: the `rs.data` access throws inside the `try` block, so
`error` is set, `loading` stays `true` and `data` is unchanged. -/
theorem c4_counterexample_null_body :
    (loadDataTsx ⟨"{ping}", .obj [], false⟩ ⟨"", []⟩ none
        (.ok ⟨.ok .null⟩) ⟨false, none, none⟩).1
      = { loading := true, data := none,
          error := some "TypeError: Cannot read properties of null (reading data)" }
    ∧ (loadDataTsx ⟨"{ping}", .obj [], false⟩ ⟨"", []⟩ none
        (.ok ⟨.ok .null⟩) ⟨false, none, none⟩).1.loading ≠ false := by
  constructor
  · simp [loadDataTsx, tryBodyTsx, getField]
  · simp [loadDataTsx, tryBodyTsx, getField]

/-- Claim C4 as amended: on any invocation where the transport succeeds
and the body parses as JSON to a value whose `data` property access does
not throw (every parsed value except the literal `null` body), both
implementations set `data` to the payload's `data` field and set
`loading = false`, leaving `error` untouched. -/
theorem c4_success_sets_data (props : Props) (cfg : Config)
    (vars : Option Json) (resp : Response) (rs : Json) (d : Option Json)
    (s : ResultRecord)
    (h : resp.jsonResult = .ok rs) (hd : getField rs "data" = .ok d) :
    (loadDataTsx props cfg vars (.ok resp) s).1
        = { loading := false, data := d, error := s.error }
    ∧ (loadDataLib props cfg vars (.ok resp) s).1
        = { loading := false, data := d, error := s.error } := by
  simp [loadDataTsx, loadDataLib, tryBodyTsx, tryBodyLib, h, hd]

/-- Concrete instance of C4: on a fresh hook with query `"{ping}"` and a
stub returning `{"data":{"ping":"pong"}}`, after the call the state is
`loading = false`, `error` absent, `data = {"ping":"pong"}`. -/
theorem c4_witness :
    (loadDataTsx ⟨"{ping}", .obj [], false⟩ ⟨"", []⟩ none
        (.ok ⟨.ok (.obj [("data", .obj [("ping", .str "pong")])])⟩)
        ⟨false, none, none⟩).1
      = { loading := false, data := some (.obj [("ping", .str "pong")]),
          error := none } :=
  (c4_success_sets_data ⟨"{ping}", .obj [], false⟩ ⟨"", []⟩ none
      ⟨.ok (.obj [("data", .obj [("ping", .str "pong")])])⟩
      (.obj [("data", .obj [("ping", .str "pong")])])
      (some (.obj [("ping", .str "pong")]))
      ⟨false, none, none⟩ rfl rfl).1

/-- Claim C8: `reset` is idempotent and always produces the terminal state
`{loading := false, data := none, error := none}`, from any state. -/
theorem c8_reset_idempotent :
    ∀ s : ResultRecord, reset (reset s) = reset s
      ∧ reset s = { loading := false, data := none, error := none } :=
  fun _ => ⟨rfl, rfl⟩

/-- Claim C5: no invocation propagates an exception to the caller.  In the
embedding `loadData` is a total function into `ResultRecord × List Event`
(the `catch` branch eliminates every `tryBody` error), and this theorem
shows that for every transport outcome the failure, when there is one —
a fetch rejection, a `req.json()` parse failure, or the TypeError thrown
by `rs.data` on a `null` body — is surfaced exactly through the `error`
field, which is otherwise untouched, in both implementations. -/
theorem c5_failures_swallowed :
    ∀ props cfg vars o s,
      (loadDataTsx props cfg vars o s).1.error
          = (match failureOf o with | some e => some e | none => s.error)
      ∧ (loadDataLib props cfg vars o s).1.error
          = (match failureOf o with | some e => some e | none => s.error) := by
  intro props cfg vars o s
  cases o with
  | fetchThrow e =>
      simp [loadDataTsx, loadDataLib, tryBodyTsx, tryBodyLib, failureOf]
  | ok resp =>
      cases h : resp.jsonResult with
      | error e =>
          simp [loadDataTsx, loadDataLib, tryBodyTsx, tryBodyLib, failureOf, h]
      | ok rs =>
          cases hg : getField rs "data" <;>
            simp [loadDataTsx, loadDataLib, tryBodyTsx, tryBodyLib, failureOf, h, hg]

/-- Claim C6: in both implementations, the only observable effect a
loadData call performs before the fetch is `setLoading(true)` — neither
`error` nor `data` is written at the start of a call. -/
theorem c6_only_loading_before_fetch :
    ∀ props cfg vars o s,
      ((loadDataTsx props cfg vars o s).2.takeWhile (fun ev => !ev.isFetch))
          = [.setLoading true]
      ∧ ((loadDataLib props cfg vars o s).2.takeWhile (fun ev => !ev.isFetch))
          = [.setLoading true] := by
  intro props cfg vars o s
  cases o with
  | fetchThrow e =>
      simp [loadDataTsx, loadDataLib, tryBodyTsx, tryBodyLib,
        List.takeWhile, Event.isFetch]
  | ok resp =>
      cases h : resp.jsonResult with
      | error e =>
          simp [loadDataTsx, loadDataLib, tryBodyTsx, tryBodyLib, h,
            List.takeWhile, Event.isFetch]
      | ok rs =>
          cases hg : getField rs "data" <;>
            simp [loadDataTsx, loadDataLib, tryBodyTsx, tryBodyLib, h, hg,
              List.takeWhile, Event.isFetch]

/-- Claim C7: a (truthy) override variable mapping replaces the default in
the outgoing packet for that call only; a call without an override still
uses the stored default `props.variables`, which the hook never mutates. -/
theorem c7_variable_override (props : Props) (cfg : Config) (v : Json)
    (h : jsTruthy v = true) :
    (mkRequest props cfg (some v)).body.variables = v
    ∧ (mkRequest props cfg none).body.variables = props.variables := by
  simp [mkRequest, mkPacket, chosenVars, h]

/-- Concrete instance of C7: with default `{id:1}`, calling with override
`{id:5}` sends `{id:5}`, and a subsequent call without an override still
sends the original `{id:1}`. -/
theorem c7_witness :
    (mkRequest ⟨"q", .obj [("id", .num 1)], true⟩ ⟨"", []⟩
        (some (.obj [("id", .num 5)]))).body.variables = .obj [("id", .num 5)]
    ∧ (mkRequest ⟨"q", .obj [("id", .num 1)], true⟩ ⟨"", []⟩ none).body.variables
        = .obj [("id", .num 1)] :=
  ⟨(c7_variable_override ⟨"q", .obj [("id", .num 1)], true⟩ ⟨"", []⟩
      (.obj [("id", .num 5)]) rfl).1,
   (c7_variable_override ⟨"q", .obj [("id", .num 1)], true⟩ ⟨"", []⟩
      (.obj [("id", .num 5)]) rfl).2⟩

/-- Claim C9: in the TypeScript source, every call whose fetch succeeds
performs the 3000 ms delay strictly between the transport completion and
the `req.json()` read, and hence before any write of `data` or `loading`
on the success path: the full event trace is given explicitly. -/
theorem c9_delay_before_parse_tsx :
    ∀ props cfg vars resp s,
      (loadDataTsx props cfg vars (.ok resp) s).2
        = .setLoading true :: .fetchEv (mkRequest props cfg vars) :: .delay 3000 ::
          .jsonCall ::
          (match resp.jsonResult with
           | .ok rs =>
               match getField rs "data" with
               | .ok d => [.setData d, .setLoading false]
               | .error e => [.setError e]
           | .error e => [.setError e]) := by
  intro props cfg vars resp s
  cases h : resp.jsonResult with
  | error e => simp [loadDataTsx, tryBodyTsx, h]
  | ok rs =>
      cases hg : getField rs "data" <;> simp [loadDataTsx, tryBodyTsx, h, hg]

/-- Claim C3 (code evaluated at the failing input): with
`loadOnStart = false` and default variables `{}` (truthy), the mount
effect of `src/lib/index.js` issues an automatic loadData call — its
condition is the truthiness of `variables` — while the TypeScript mount
effect, whose condition is `loadOnStart`, issues none. -/
theorem c3_lib_autotrigger_ignores_loadOnStart :
    autoTriggerLib ⟨"{ping}", .obj [], false⟩ = true
    ∧ autoTriggerTsx ⟨"{ping}", .obj [], false⟩ = false :=
  ⟨rfl, rfl⟩

/-- Counterexample to C10: the two implementations do not share the same
auto-trigger condition — with `loadOnStart = false` and truthy default
variables `{id:1}`, the TypeScript mount effect issues no automatic call
while the compiled JavaScript one does. -/
theorem c10_counterexample_autotrigger :
    autoTriggerTsx ⟨"q", .obj [("id", .num 1)], false⟩
      ≠ autoTriggerLib ⟨"q", .obj [("id", .num 1)], false⟩ := by
  decide

/-- Claim C10 as amended: the two implementations compute the same final
state for every loadData invocation, but they are not observably
equivalent: their auto-trigger conditions differ, the TypeScript success
path performs a 3000 ms delay that the compiled JavaScript never performs,
and the shapes of the value returned to the consumer differ. -/
theorem c10_amended_partial_equivalence :
    (∀ props cfg vars o s,
        (loadDataTsx props cfg vars o s).1 = (loadDataLib props cfg vars o s).1)
    ∧ (∃ p : Props, autoTriggerTsx p ≠ autoTriggerLib p)
    ∧ (∀ props cfg vars resp s,
        ((loadDataTsx props cfg vars (.ok resp) s).2.any Event.isDelay) = true)
    ∧ (∀ props cfg vars o s,
        ((loadDataLib props cfg vars o s).2.all (fun ev => !ev.isDelay)) = true)
    ∧ returnShapeTsx ≠ returnShapeLib := by
  refine ⟨?_, ⟨⟨"q", .obj [], false⟩, by decide⟩, ?_, ?_, by decide⟩
  · intro props cfg vars o s
    cases o with
    | fetchThrow e => simp [loadDataTsx, loadDataLib, tryBodyTsx, tryBodyLib]
    | ok resp =>
        cases h : resp.jsonResult with
        | error e => simp [loadDataTsx, loadDataLib, tryBodyTsx, tryBodyLib, h]
        | ok rs =>
            cases hg : getField rs "data" <;>
              simp [loadDataTsx, loadDataLib, tryBodyTsx, tryBodyLib, h, hg]
  · intro props cfg vars resp s
    cases h : resp.jsonResult with
    | error e => simp [loadDataTsx, tryBodyTsx, h, List.any, Event.isDelay]
    | ok rs =>
        cases hg : getField rs "data" <;>
          simp [loadDataTsx, tryBodyTsx, h, hg, List.any, Event.isDelay]
  · intro props cfg vars o s
    cases o with
    | fetchThrow e =>
        simp [loadDataLib, tryBodyLib, List.all, Event.isDelay]
    | ok resp =>
        cases h : resp.jsonResult with
        | error e => simp [loadDataLib, tryBodyLib, h, List.all, Event.isDelay]
        | ok rs =>
            cases hg : getField rs "data" <;>
              simp [loadDataLib, tryBodyLib, h, hg, List.all, Event.isDelay]
